import Mathlib

/-!
Verification of the reliable-HTTP-client core of the sourcemod-mongodb
extension (`src/http_extension/`).  The C++ sources are shallowly embedded:

* `HTTPClientM` models `http_client.cpp` (`HTTPClient::SendRequest`,
  `PerformRequest`, `ShouldRetry`, `UpdateStats`, `AsyncRequestThread`).
  The libcurl transport is a parameter mapping the attempt index to the
  outcome of one `curl_easy_perform` call; wall-clock latency (the
  `averageResponseTime` field, a `double` fed from `steady_clock`) is
  real-time measurement and is kept outside the embedded counters.
  The `size_t` counters of `HTTPClient::Stats` are embedded as `Nat`
  with an explicit `% 2 ^ 64`.

* `JsonCodec` models the JSON escaping of
  `complete_extension.cpp::EscapeJsonString` /
  `minimal_complete_extension.cpp::EscapeJsonString`, together with a
  strict JSON value parser standing for the bundled nlohmann parser
  (`third_party/json.hpp`): string literals may not contain raw control
  characters below 0x20, escapes are the standard seven plus `\uXXXX`
  with surrogate pairing.  Number literals are modelled for the integer
  grammar only (no fraction/exponent forms, which turn into C++ doubles
  and are exercised by no embedded request or response body).  The text
  carried by `json::exception::what()` is abstracted as the constant
  `jsonExcMsg`.

* `CompleteExt` models the stats/error state machine of
  `complete_extension.cpp` (`EnhancedHTTPPost`, `g_lastError`,
  `g_performanceMetrics`, `MongoDB_GetSuccessRate`).  Execution times are
  threaded as `Rat` inputs; timestamps (`time(nullptr)`) as `Int` inputs.

* `MongoAPI` models `mongodb_api.cpp` (`MongoDBAPILayer`): the injected
  `HTTPClient` is a parameter `send` and each operation also returns the
  list of HTTP calls it issued; the injected `JSONStructureManager` is a
  parameter record `JsonMgr` mirroring the `m_jsonManager` pointer.  The
  SourceMod host factory `adtfactory->CreateBasicStringMap` is modelled
  as always producing a fresh map, and `steady_clock` timestamps inside
  `ConnectionInfo` are omitted as real-time data.
-/

namespace HTTPClientM

/-- Outcome of a single libcurl transport attempt inside
`HTTPClient::PerformRequest`: either `curl_easy_perform` itself fails
(`CURLcode` other than `CURLE_OK`, carrying `curl_easy_strerror`), or it
yields an HTTP status code and a body delivered through `WriteCallback`. -/
inductive TransportOutcome where
  | curlError (msg : String)
  | httpResponse (code : Nat) (body : String)
deriving Repr, DecidableEq

/-- Result of one `HTTPClient::PerformRequest` call: the returned flag, the
(possibly updated) `httpCode` out-parameter, the `m_lastError` member and the
`response` out-parameter.  On a curl-level failure `httpCode` is left at its
previous value, matching the C++ where `curl_easy_getinfo` is only reached
when `curl_easy_perform` returned `CURLE_OK`. -/
structure PerformResult where
  ok : Bool
  httpCode : Nat
  lastError : String
  response : String
deriving Repr, DecidableEq

/-- Model of `HTTPClient::PerformRequest` (`http_client.cpp:182-208`). -/
def performRequest (out : TransportOutcome) (httpCode : Nat) (lastError : String) :
    PerformResult :=
  match out with
  | .curlError msg => ⟨false, httpCode, "CURL request failed: " ++ msg, ""⟩
  | .httpResponse code body =>
      if 200 ≤ code ∧ code < 300 then ⟨true, code, lastError, body⟩
      else ⟨false, code, "HTTP request failed with status code: " ++ toString code, body⟩

/-- Prefix-at-head test on character lists, the head case of
`std::string::find`. -/
def pfxAt : List Char → List Char → Bool
  | [], _ => true
  | _ :: _, [] => false
  | a :: as, b :: bs => a == b && pfxAt as bs

/-- Substring occurrence test over character lists, modelling
`std::string::find(needle) != npos`. -/
def hasSub (needle : List Char) : List Char → Bool
  | [] => needle.isEmpty
  | c :: rest => pfxAt needle (c :: rest) || hasSub needle rest

/-- String-level wrapper for `hasSub`. -/
def strHasSub (hay needle : String) : Bool :=
  hasSub needle.toList hay.toList

/-- Model of `HTTPClient::ShouldRetry` (`http_client.cpp:269-282`): retry on
no-response (`httpCode == 0`) or 5xx, or when the error text mentions
"timeout" or "connection".  The `attempt` argument is unused, as in C++. -/
def shouldRetry (httpCode : Nat) (error : String) (_attempt : Nat) : Bool :=
  if httpCode = 0 ∨ (500 ≤ httpCode ∧ httpCode < 600) then true
  else if strHasSub error "timeout" || strHasSub error "connection" then true
  else false

/-- The `HTTPClient::Stats` counters (`size_t`, hence mod `2 ^ 64`).  The
`averageResponseTime` double is wall-clock data and not embedded. -/
structure HTTPStats where
  totalRequests : Nat
  successfulRequests : Nat
  failedRequests : Nat
  retryCount : Nat
deriving Repr, DecidableEq

/-- Stats of a freshly constructed client (`memset(&m_stats, 0, ...)`). -/
def initialHTTPStats : HTTPStats := ⟨0, 0, 0, 0⟩

/-- Result of the retry loop of `HTTPClient::SendRequest`: final flag, number
of `PerformRequest` attempts made, the backoff delays slept (in ms, in
order), final `httpCode`, `m_lastError` and `response`, and the stats as
mutated by the in-loop `m_stats.retryCount++`. -/
structure LoopResult where
  success : Bool
  attempts : Nat
  delays : List Nat
  httpCode : Nat
  lastError : String
  response : String
  stats : HTTPStats
deriving Repr, DecidableEq

/-- Retry loop of `HTTPClient::SendRequest` (`http_client.cpp:94-108`).
The C++ loop runs `attempt = 0 .. m_retryCount`; here `fuel` is the number
of attempts still allowed after the current one (`m_retryCount - attempt`),
so the C++ guard `attempt < m_retryCount` becomes `fuel > 0`.  On a
retryable failure with attempts remaining it sleeps `100 * 2 ^ attempt`
milliseconds (`100 * (1 << attempt)`) and increments `m_stats.retryCount`. -/
def sendLoop (transport : Nat → TransportOutcome) (fuel attempt httpCode : Nat)
    (lastError : String) (stats : HTTPStats) : LoopResult :=
  let pr := performRequest (transport attempt) httpCode lastError
  if pr.ok then ⟨true, 1, [], pr.httpCode, pr.lastError, pr.response, stats⟩
  else
    match fuel with
    | 0 => ⟨false, 1, [], pr.httpCode, pr.lastError, pr.response, stats⟩
    | fuel' + 1 =>
        if shouldRetry pr.httpCode pr.lastError attempt then
          let stats' := { stats with retryCount := (stats.retryCount + 1) % 2 ^ 64 }
          let r := sendLoop transport fuel' (attempt + 1) pr.httpCode pr.lastError stats'
          ⟨r.success, r.attempts + 1, 100 * 2 ^ attempt :: r.delays,
            r.httpCode, r.lastError, r.response, r.stats⟩
        else ⟨false, 1, [], pr.httpCode, pr.lastError, pr.response, stats⟩

/-- Model of `HTTPClient::UpdateStats` (`http_client.cpp:284-301`), counters
only (the latency average is wall-clock data). -/
def updateStats (success : Bool) (s : HTTPStats) : HTTPStats :=
  { s with
    totalRequests := (s.totalRequests + 1) % 2 ^ 64
    successfulRequests :=
      if success then (s.successfulRequests + 1) % 2 ^ 64 else s.successfulRequests
    failedRequests :=
      if success then s.failedRequests else (s.failedRequests + 1) % 2 ^ 64 }

/-- Model of `HTTPClient::SendRequest` (`http_client.cpp:79-115`) for an
initialized client: run the retry loop starting at attempt 0 with
`httpCode = 0`, then call `UpdateStats` exactly once with the final flag. -/
def sendRequest (transport : Nat → TransportOutcome) (retryCount : Nat)
    (lastError : String) (stats : HTTPStats) : LoopResult :=
  let r := sendLoop transport retryCount 0 0 lastError stats
  { r with stats := updateStats r.success r.stats }

/-- A transport that always completes with HTTP status 503. -/
def always503 (body : String) : Nat → TransportOutcome :=
  fun _ => .httpResponse 503 body

/-- Error text produced by `PerformRequest` for a 503 response. -/
def err503 : String := "HTTP request failed with status code: 503"

/-- In-loop retry bookkeeping: `n` successive `m_stats.retryCount++`. -/
def bumpRetry : Nat → HTTPStats → HTTPStats
  | 0, s => s
  | n + 1, s => bumpRetry n { s with retryCount := (s.retryCount + 1) % 2 ^ 64 }

theorem perform_503 (body e : String) (hc : Nat) :
    performRequest (TransportOutcome.httpResponse 503 body) hc e =
      { ok := false, httpCode := 503, lastError := err503, response := body } := by
  have h1 : ¬(200 ≤ 503 ∧ 503 < 300) := by decide
  have h2 : ("HTTP request failed with status code: " ++ toString 503) = err503 := by decide
  simp only [performRequest, if_neg h1, h2]

theorem shouldRetry_503 (e : String) (a : Nat) : shouldRetry 503 e a = true := by
  simp [shouldRetry]

theorem sendLoop_503 (body : String) :
    ∀ fuel attempt httpCode e stats,
      sendLoop (always503 body) fuel attempt httpCode e stats =
        ⟨false, fuel + 1,
          (List.range' attempt fuel).map (fun i => 100 * 2 ^ i),
          503, err503, body, bumpRetry fuel stats⟩ := by
  intro fuel
  induction fuel with
  | zero =>
      intro attempt httpCode e stats
      rw [sendLoop]
      simp [always503, perform_503, bumpRetry]
  | succ fuel ih =>
      intro attempt httpCode e stats
      rw [sendLoop]
      simp [always503, perform_503, shouldRetry_503, ih, List.range'_succ, bumpRetry]

theorem sendLoop_counters (transport : Nat → TransportOutcome) :
    ∀ fuel attempt httpCode e stats,
      (sendLoop transport fuel attempt httpCode e stats).stats.totalRequests =
          stats.totalRequests ∧
        (sendLoop transport fuel attempt httpCode e stats).stats.successfulRequests =
          stats.successfulRequests ∧
        (sendLoop transport fuel attempt httpCode e stats).stats.failedRequests =
          stats.failedRequests ∧
        (sendLoop transport fuel attempt httpCode e stats).attempts =
          (sendLoop transport fuel attempt httpCode e stats).delays.length + 1 := by
  intro fuel
  induction fuel with
  | zero =>
      intro attempt httpCode e stats
      rw [sendLoop]
      cases hpr : performRequest (transport attempt) httpCode e with
      | mk ok hc' e' resp =>
          cases ok
          · exact ⟨rfl, rfl, rfl, rfl⟩
          · exact ⟨rfl, rfl, rfl, rfl⟩
  | succ fuel ih =>
      intro attempt httpCode e stats
      rw [sendLoop]
      cases hpr : performRequest (transport attempt) httpCode e with
      | mk ok hc' e' resp =>
          cases ok
          · dsimp only
            by_cases hb : shouldRetry hc' e' attempt = true
            · rw [if_pos hb]
              have h := ih (attempt + 1) hc' e'
                { stats with retryCount := (stats.retryCount + 1) % 2 ^ 64 }
              exact ⟨h.1, h.2.1, h.2.2.1, by simp; exact h.2.2.2⟩
            · rw [if_neg hb]
              exact ⟨rfl, rfl, rfl, rfl⟩
          · exact ⟨rfl, rfl, rfl, rfl⟩

/-- C1: with `maxRetries = N` configured, a transport that always answers
with HTTP 503 is attempted exactly `N + 1` times by the synchronous
`HTTPClient::SendRequest`; the backoff delays slept between consecutive
attempts are `100 * 2 ^ attempt` milliseconds for attempts `0 .. N - 1` and
are non-decreasing along the run. -/
theorem retry_503_attempts_and_backoff (N : Nat) (body e : String) (stats : HTTPStats) :
    (sendRequest (always503 body) N e stats).attempts = N + 1 ∧
      (sendRequest (always503 body) N e stats).delays =
        (List.range N).map (fun i => 100 * 2 ^ i) ∧
      (sendRequest (always503 body) N e stats).delays.Pairwise (· ≤ ·) := by
  have h := sendLoop_503 body N 0 0 e stats
  have hdel : (sendRequest (always503 body) N e stats).delays =
      (List.range N).map (fun i => 100 * 2 ^ i) := by
    simp [sendRequest, h, List.range_eq_range']
  refine ⟨by simp [sendRequest, h], hdel, ?_⟩
  rw [hdel]
  refine List.Pairwise.map _ (fun a b hab => ?_) (List.pairwise_lt_range N)
  exact Nat.mul_le_mul_left 100 (Nat.pow_le_pow_right (by norm_num) hab.le)

/-- Error text produced by `PerformRequest` for a 400 response. -/
def err400 : String := "HTTP request failed with status code: 400"

theorem perform_400 (body e : String) (hc : Nat) :
    performRequest (TransportOutcome.httpResponse 400 body) hc e =
      { ok := false, httpCode := 400, lastError := err400, response := body } := by
  have h1 : ¬(200 ≤ 400 ∧ 400 < 300) := by decide
  have h2 : ("HTTP request failed with status code: " ++ toString 400) = err400 := by decide
  simp only [performRequest, if_neg h1, h2]

theorem shouldRetry_400 (a : Nat) : shouldRetry 400 err400 a = false := by
  have h1 : ¬((400 : Nat) = 0 ∨ (500 ≤ 400 ∧ 400 < 600)) := by decide
  have h2 : (strHasSub err400 "timeout" || strHasSub err400 "connection") = false := by decide
  rw [shouldRetry, if_neg h1, if_neg (by simp [h2])]

theorem sendLoop_400 (body : String) :
    ∀ fuel attempt httpCode e stats,
      sendLoop (fun _ => .httpResponse 400 body) fuel attempt httpCode e stats =
        ⟨false, 1, [], 400, err400, body, stats⟩ := by
  intro fuel attempt httpCode e stats
  cases fuel with
  | zero =>
      rw [sendLoop]
      simp [perform_400]
  | succ n =>
      rw [sendLoop]
      simp [perform_400, shouldRetry_400]

/-- C2: a transport that completes with HTTP status 400 is attempted exactly
once by `HTTPClient::SendRequest` — the 4xx failure is terminal, no backoff
sleep happens, and the request is surfaced as a failure. -/
theorem no_retry_400 (N : Nat) (body e : String) (stats : HTTPStats) :
    (sendRequest (fun _ => .httpResponse 400 body) N e stats).attempts = 1 ∧
      (sendRequest (fun _ => .httpResponse 400 body) N e stats).delays = [] ∧
      (sendRequest (fun _ => .httpResponse 400 body) N e stats).success = false := by
  have h := sendLoop_400 body N 0 0 e stats
  refine ⟨?_, ?_, ?_⟩ <;> simp [sendRequest, h]

/-- C8 (amended): `HTTPClient::SendRequest` calls `UpdateStats` exactly once
per request, so the total-requests counter rises by 1 regardless of how many
transport attempts the retry loop performed; the per-attempt accounting goes
to the backoff sleeps (`attempts = delays.length + 1`), not to the total. -/
theorem total_counter_once_per_request (t : Nat → TransportOutcome) (rc : Nat)
    (e : String) (s : HTTPStats) :
    (sendRequest t rc e s).stats.totalRequests = (s.totalRequests + 1) % 2 ^ 64 ∧
      (sendRequest t rc e s).attempts = (sendRequest t rc e s).delays.length + 1 := by
  have h := sendLoop_counters t rc 0 0 e s
  constructor
  · simp [sendRequest, updateStats, h.1]
  · simpa [sendRequest] using h.2.2.2

/-- C8 counterexample: with `maxRetries = 1` and an always-503 transport, a
single synchronous request performs `k = 2` attempts but the total-requests
counter rises to 1, not 2. -/
theorem total_counter_counterexample :
    (sendRequest (always503 "") 1 "" initialHTTPStats).attempts = 2 ∧
      (sendRequest (always503 "") 1 "" initialHTTPStats).stats.totalRequests = 1 ∧
      ¬(sendRequest (always503 "") 1 "" initialHTTPStats).stats.totalRequests = 2 := by
  decide

/-- One invocation of the SourceMod plugin callback performed by
`AsyncRequestThread`: the pushed success cell, response string and error
string (the pushed `userData` cell is echoed unchanged and omitted). -/
structure CallbackInvocation where
  successCell : Nat
  response : String
  error : String
deriving Repr, DecidableEq

/-- Model of `HTTPClient::AsyncRequestThread` (`http_client.cpp:151-180`) as
the list of callback invocations the worker thread performs, indexed by
whether its `curl_easy_init` call succeeds.  When it fails, one error
invocation is pushed; when it succeeds, the function only cleans up the curl
handle and deletes the request data — the request itself and the completion
callback are an unimplemented TODO — so no invocation happens. -/
def asyncRequestThread (curlInitOk : Bool) : List CallbackInvocation :=
  if curlInitOk then []
  else [⟨0, "", "Failed to create CURL handle for async request"⟩]

/-- C4: on the worker path where `curl_easy_init` succeeds the completion
callback is invoked zero times, not exactly once; only the
`curl_easy_init`-failure path invokes it (once, with the failure result).
This evaluates the code at the failing input of the exactly-once claim. -/
theorem async_callback_zero_invocations :
    (asyncRequestThread true).length = 0 ∧ (asyncRequestThread false).length = 1 := by
  decide

end HTTPClientM

namespace CompleteExt

/-- The `MongoError` struct of `complete_extension.cpp` (`g_lastError`):
code, message, details and `time_t` timestamp. -/
structure MongoError where
  code : Int
  message : String
  details : String
  timestamp : Int
deriving Repr, DecidableEq

/-- The counter part of `PerformanceMetrics` (`g_performanceMetrics`); the
`int` counters are embedded as `Int` (their overflow is C++ UB, not defined
behaviour to reproduce), the `double` execution-time accumulators as `Rat`
fed from the measured per-call execution time, and `lastOperationTime` as
the `time_t` input. -/
structure PerformanceMetrics where
  totalOperations : Int
  successfulOperations : Int
  failedOperations : Int
  totalExecutionTime : Rat
  averageExecutionTime : Rat
  lastOperationTime : Int
deriving Repr, DecidableEq

/-- The initializer `MongoError g_lastError = {0, "", "", 0}`. -/
def initialError : MongoError := ⟨0, "", "", 0⟩

/-- The initializer `PerformanceMetrics g_performanceMetrics = {0, 0, 0, 0.0,
0.0, 0}`, also the value installed by `MongoDB_ResetPerformanceMetrics`. -/
def initialMetrics : PerformanceMetrics := ⟨0, 0, 0, 0, 0, 0⟩

/-- The global mutable state touched by `EnhancedHTTPPost`. -/
structure ExtState where
  lastError : MongoError
  metrics : PerformanceMetrics
deriving Repr, DecidableEq

/-- Outcome of the transport part of one `EnhancedHTTPPost` call:
`curl_easy_init` fails, `curl_easy_perform` fails (`res != CURLE_OK`) with
its error text, or an HTTP exchange completes with a status code and
response body.  `execTime` is the measured wall-clock duration in ms and
`now` the `time(nullptr)` reading, both inputs to the embedding. -/
inductive HttpAttemptOutcome where
  | curlInitFail (now : Int)
  | curlFail (errMsg : String) (execTime : Rat) (now : Int)
  | httpDone (code : Nat) (respBody : String) (execTime : Rat) (now : Int)
deriving Repr, DecidableEq

/-- The metrics update performed after `curl_easy_perform` in
`EnhancedHTTPPost`: `totalOperations++`, accumulate and average the
execution time, stamp `lastOperationTime`. -/
def recordAttempt (m : PerformanceMetrics) (t : Rat) (now : Int) : PerformanceMetrics :=
  let total := m.totalOperations + 1
  let time := m.totalExecutionTime + t
  { m with
    totalOperations := total
    totalExecutionTime := time
    averageExecutionTime := time / (total : Rat)
    lastOperationTime := now }

/-- Model of `EnhancedHTTPPost` (`complete_extension.cpp:146-213`): returns
the function's boolean result and the updated `g_lastError` /
`g_performanceMetrics` state.  A `curl_easy_init` failure records error 1001
and touches no counters; a curl-level failure records error 1002 and a
failed operation; an HTTP status `>= 400` records the status as error code
and a failed operation; otherwise the operation is successful and the last
error is cleared to `{0, "", "", 0}`. -/
def enhancedHTTPPost (st : ExtState) (out : HttpAttemptOutcome) : Bool × ExtState :=
  match out with
  | .curlInitFail now =>
      (false,
        { st with lastError :=
            ⟨1001, "Failed to initialize CURL", "CURL initialization failed", now⟩ })
  | .curlFail msg t now =>
      let m := recordAttempt st.metrics t now
      (false,
        ⟨⟨1002, "HTTP request failed", msg, now⟩,
          { m with failedOperations := m.failedOperations + 1 }⟩)
  | .httpDone code body t now =>
      let m := recordAttempt st.metrics t now
      if 400 ≤ code then
        (false,
          ⟨⟨(code : Int), "HTTP error response", body, now⟩,
            { m with failedOperations := m.failedOperations + 1 }⟩)
      else
        (true,
          ⟨⟨0, "", "", 0⟩,
            { m with successfulOperations := m.successfulOperations + 1 }⟩)

/-- Model of `MongoDB_GetSuccessRate` (`complete_extension.cpp:1935-1943`):
100 when no operations have run, otherwise the percentage of successful
operations truncated to an integer (the exact rational stands in for the
C++ `double` arithmetic; the `(cell_t)` cast truncates toward zero, which
for this non-negative ratio is the floor). -/
def getSuccessRate (m : PerformanceMetrics) : Int :=
  if m.totalOperations = 0 then 100
  else ⌊(m.successfulOperations : Rat) / (m.totalOperations : Rat) * 100⌋

/-- C9: `GetSuccessRate()` on a freshly constructed client, before any
operation has run, returns exactly 100. -/
theorem success_rate_fresh_is_100 : getSuccessRate initialMetrics = 100 := by
  simp [getSuccessRate, initialMetrics]

/-- C7: starting from freshly reset statistics, a successful operation
(HTTP 200) clears the last-error record, and after a following failed
operation (HTTP 500) the counters read `totalOperations = 2`,
`successfulOperations = 1`, `failedOperations = 1` while the last-error
record reflects the later failure (its message is non-empty). -/
theorem one_success_one_failure_counters (e0 : MongoError) (b1 b2 : String)
    (t1 t2 : Rat) (n1 n2 : Int) :
    (enhancedHTTPPost ⟨e0, initialMetrics⟩ (.httpDone 200 b1 t1 n1)).2.lastError =
        initialError ∧
      ((enhancedHTTPPost
          (enhancedHTTPPost ⟨e0, initialMetrics⟩ (.httpDone 200 b1 t1 n1)).2
          (.httpDone 500 b2 t2 n2)).2.metrics.totalOperations = 2 ∧
        (enhancedHTTPPost
          (enhancedHTTPPost ⟨e0, initialMetrics⟩ (.httpDone 200 b1 t1 n1)).2
          (.httpDone 500 b2 t2 n2)).2.metrics.successfulOperations = 1 ∧
        (enhancedHTTPPost
          (enhancedHTTPPost ⟨e0, initialMetrics⟩ (.httpDone 200 b1 t1 n1)).2
          (.httpDone 500 b2 t2 n2)).2.metrics.failedOperations = 1 ∧
        (enhancedHTTPPost
          (enhancedHTTPPost ⟨e0, initialMetrics⟩ (.httpDone 200 b1 t1 n1)).2
          (.httpDone 500 b2 t2 n2)).2.lastError =
          ⟨500, "HTTP error response", b2, n2⟩ ∧
        (enhancedHTTPPost
          (enhancedHTTPPost ⟨e0, initialMetrics⟩ (.httpDone 200 b1 t1 n1)).2
          (.httpDone 500 b2 t2 n2)).2.lastError.message ≠ "") := by
  have h200 : ¬(400 ≤ 200) := by decide
  have h500 : (400 : Nat) ≤ 500 := by decide
  refine ⟨?_, ?_, ?_, ?_, ?_, ?_⟩ <;>
    simp [enhancedHTTPPost, recordAttempt, initialMetrics, initialError, h200, if_pos h500]

end CompleteExt

namespace JsonCodec

/-- Per-character escaping of `EscapeJsonString`
(`complete_extension.cpp:83-98`): quote, backslash, `\b`, `\f`, `\n`, `\r`,
`\t` get two-character escapes; every other character — including every
other control character below 0x20 — is appended raw. -/
def escChar (c : Char) : List Char :=
  if c = '"' then ['\\', '"']
  else if c = '\\' then ['\\', '\\']
  else if c = '\x08' then ['\\', 'b']
  else if c = '\x0c' then ['\\', 'f']
  else if c = '\n' then ['\\', 'n']
  else if c = '\r' then ['\\', 'r']
  else if c = '\t' then ['\\', 't']
  else [c]

/-- Model of `EscapeJsonString` from `complete_extension.cpp` over the
character list of the input string. -/
def escapeJsonString : List Char → List Char
  | [] => []
  | c :: rest => escChar c ++ escapeJsonString rest

/-- Per-character escaping of the second `EscapeJsonString` variant
(`minimal_complete_extension.cpp:132-146`), which lacks the `\b` and `\f`
cases of the `complete_extension.cpp` variant. -/
def escCharMin (c : Char) : List Char :=
  if c = '"' then ['\\', '"']
  else if c = '\\' then ['\\', '\\']
  else if c = '\n' then ['\\', 'n']
  else if c = '\r' then ['\\', 'r']
  else if c = '\t' then ['\\', 't']
  else [c]

/-- Model of `EscapeJsonString` from `minimal_complete_extension.cpp`. -/
def escapeJsonStringMin : List Char → List Char
  | [] => []
  | c :: rest => escCharMin c ++ escapeJsonStringMin rest

/-- Numeric value of one hexadecimal digit. -/
def hexDigitVal (c : Char) : Option Nat :=
  if '0' ≤ c ∧ c ≤ '9' then some (c.toNat - 48)
  else if 'a' ≤ c ∧ c ≤ 'f' then some (c.toNat - 97 + 10)
  else if 'A' ≤ c ∧ c ≤ 'F' then some (c.toNat - 65 + 10)
  else none

/-- Numeric value of a four-hex-digit escape payload. -/
def hexQuad (a b c d : Char) : Option Nat :=
  match hexDigitVal a, hexDigitVal b, hexDigitVal c, hexDigitVal d with
  | some x, some y, some z, some w => some (((x * 16 + y) * 16 + z) * 16 + w)
  | _, _, _, _ => none

/-- Prepend a decoded character to a string-body parse result. -/
def consChar (c : Char) : Option (List Char × List Char) → Option (List Char × List Char)
  | some (s, r) => some (c :: s, r)
  | none => none

/-- Decoding of one simple backslash escape of a JSON string literal. -/
def simpleEsc (e : Char) : Option Char :=
  if e = '"' then some '"'
  else if e = '\\' then some '\\'
  else if e = '/' then some '/'
  else if e = 'b' then some '\x08'
  else if e = 'f' then some '\x0c'
  else if e = 'n' then some '\n'
  else if e = 'r' then some '\r'
  else if e = 't' then some '\t'
  else none

/-- Decoding of a `\uXXXX` escape payload (the input starts after the `u`):
rejects bad hex and unpaired surrogates, combines surrogate pairs, and
returns the decoded character with the remaining input. -/
def parseUEsc : List Char → Option (Char × List Char)
  | h1 :: h2 :: h3 :: h4 :: rest =>
    match hexQuad h1 h2 h3 h4 with
    | none => none
    | some v =>
      if 0xD800 ≤ v ∧ v ≤ 0xDBFF then
        match rest with
        | b1 :: u1 :: g1 :: g2 :: g3 :: g4 :: rest2 =>
          if b1 = '\\' ∧ u1 = 'u' then
            match hexQuad g1 g2 g3 g4 with
            | none => none
            | some w =>
              if 0xDC00 ≤ w ∧ w ≤ 0xDFFF then
                some (Char.ofNat (0x10000 + (v - 0xD800) * 0x400 + (w - 0xDC00)), rest2)
              else none
          else none
        | _ => none
      else if 0xDC00 ≤ v ∧ v ≤ 0xDFFF then none
      else some (Char.ofNat v, rest)
  | _ => none

/-- Strict JSON string-literal body parser (the part after the opening
quote), standing for the string lexer of the bundled nlohmann parser: stops
at the closing quote returning the decoded body and the remaining input;
rejects raw control characters below 0x20, unknown escapes and bad
`\uXXXX` payloads.  The fuel argument only bounds recursion depth; every
step consumes at least one character, so `input length + 1` is always
enough. -/
def psbF : Nat → List Char → Option (List Char × List Char)
  | 0, _ => none
  | fuel + 1, cs =>
    match cs with
    | [] => none
    | c :: rest =>
      if c = '"' then some ([], rest)
      else if c = '\\' then
        match rest with
        | [] => none
        | e :: rest2 =>
          if e = 'u' then
            match parseUEsc rest2 with
            | some (ch, rest3) => consChar ch (psbF fuel rest3)
            | none => none
          else
            match simpleEsc e with
            | some ch => consChar ch (psbF fuel rest2)
            | none => none
      else if c.toNat < 0x20 then none
      else consChar c (psbF fuel rest)

/-- String-literal body parser with its fuel pre-charged from the input. -/
def parseStringBody (cs : List Char) : Option (List Char × List Char) :=
  psbF (cs.length + 1) cs

/-- Parse a complete JSON string literal (opening quote, body, closing
quote, end of input): the decode direction of the round-trip law. -/
def decodeJsonStringLit (cs : List Char) : Option (List Char) :=
  match cs with
  | [] => none
  | c :: rest =>
    if c = '"' then
      match parseStringBody rest with
      | some (s, []) => some s
      | _ => none
    else none

/-- The encode direction: how the extension embeds an escaped value in a
JSON document, `"\"" + EscapeJsonString(value) + "\""`. -/
def encodeJsonStringLit (s : List Char) : List Char :=
  '"' :: (escapeJsonString s ++ ['"'])

theorem psb_quote (fuel : Nat) (rest : List Char) :
    psbF (fuel + 1) ('"' :: rest) = some ([], rest) := by
  rw [psbF.eq_def]
  simp

theorem psb_esc (fuel : Nat) (e ch : Char) (rest : List Char)
    (he : simpleEsc e = some ch) (hu : e ≠ 'u') :
    psbF (fuel + 1) ('\\' :: e :: rest) = consChar ch (psbF fuel rest) := by
  rw [psbF.eq_def]
  simp only [show ¬('\\' : Char) = '"' by decide, if_false, if_pos rfl, if_neg hu, he]
  simp

theorem psb_raw (fuel : Nat) (c : Char) (rest : List Char) (h1 : c ≠ '"')
    (h2 : c ≠ '\\') (h3 : ¬c.toNat < 0x20) :
    psbF (fuel + 1) (c :: rest) = consChar c (psbF fuel rest) := by
  rw [psbF.eq_def]
  simp only [if_neg h1, if_neg h2, if_neg h3]

theorem roundtrip_cons_esc (c e : Char) (s rest : List Char) (fuel : Nat)
    (hesc : escChar c = ['\\', e]) (he : simpleEsc e = some c) (hu : e ≠ 'u')
    (hrec : ∀ f r, (escapeJsonString s).length < f →
      psbF f (escapeJsonString s ++ '"' :: r) = some (s, r))
    (hf : (escapeJsonString (c :: s)).length < fuel) :
    psbF fuel (escapeJsonString (c :: s) ++ '"' :: rest) = some (c :: s, rest) := by
  have hlen : (escapeJsonString (c :: s)).length = 2 + (escapeJsonString s).length := by
    rw [show escapeJsonString (c :: s) = escChar c ++ escapeJsonString s from rfl, hesc]
    simp
    omega
  obtain ⟨fuel', rfl⟩ : ∃ f, fuel = f + 1 := ⟨fuel - 1, by omega⟩
  rw [show escapeJsonString (c :: s) = escChar c ++ escapeJsonString s from rfl, hesc]
  simp only [List.cons_append, List.nil_append]
  rw [psb_esc fuel' e c _ he hu, hrec fuel' rest (by omega)]
  rfl

theorem roundtrip_cons_raw (c : Char) (s rest : List Char) (fuel : Nat)
    (hesc : escChar c = [c]) (h1 : c ≠ '"') (h2 : c ≠ '\\') (h3 : ¬c.toNat < 0x20)
    (hrec : ∀ f r, (escapeJsonString s).length < f →
      psbF f (escapeJsonString s ++ '"' :: r) = some (s, r))
    (hf : (escapeJsonString (c :: s)).length < fuel) :
    psbF fuel (escapeJsonString (c :: s) ++ '"' :: rest) = some (c :: s, rest) := by
  have hlen : (escapeJsonString (c :: s)).length = 1 + (escapeJsonString s).length := by
    rw [show escapeJsonString (c :: s) = escChar c ++ escapeJsonString s from rfl, hesc]
    simp
    omega
  obtain ⟨fuel', rfl⟩ : ∃ f, fuel = f + 1 := ⟨fuel - 1, by omega⟩
  rw [show escapeJsonString (c :: s) = escChar c ++ escapeJsonString s from rfl, hesc]
  simp only [List.cons_append, List.nil_append]
  rw [psb_raw fuel' c _ h1 h2 h3, hrec fuel' rest (by omega)]
  rfl

theorem parseStringBody_escape (s : List Char)
    (h : ∀ c ∈ s, 0x20 ≤ c.toNat ∨ c ∈ ['\x08', '\x0c', '\n', '\r', '\t']) :
    ∀ fuel rest, (escapeJsonString s).length < fuel →
      psbF fuel (escapeJsonString s ++ '"' :: rest) = some (s, rest) := by
  induction s with
  | nil =>
      intro fuel rest hf
      obtain ⟨fuel', rfl⟩ : ∃ f, fuel = f + 1 := ⟨fuel - 1, by omega⟩
      rw [show escapeJsonString [] = [] from rfl, List.nil_append, psb_quote]
  | cons c s ih =>
      have hs : ∀ x ∈ s, 0x20 ≤ x.toNat ∨ x ∈ ['\x08', '\x0c', '\n', '\r', '\t'] :=
        fun x hx => h x (List.mem_cons_of_mem _ hx)
      have hrec := ih hs
      intro fuel rest hf
      by_cases h1 : c = '"'
      · subst h1
        exact roundtrip_cons_esc '"' '"' s rest fuel (by decide) (by decide) (by decide)
          hrec hf
      · by_cases h2 : c = '\\'
        · subst h2
          exact roundtrip_cons_esc '\\' '\\' s rest fuel (by decide) (by decide) (by decide)
            hrec hf
        · by_cases h3 : c = '\x08'
          · subst h3
            exact roundtrip_cons_esc '\x08' 'b' s rest fuel (by decide) (by decide)
              (by decide) hrec hf
          · by_cases h4 : c = '\x0c'
            · subst h4
              exact roundtrip_cons_esc '\x0c' 'f' s rest fuel (by decide) (by decide)
                (by decide) hrec hf
            · by_cases h5 : c = '\n'
              · subst h5
                exact roundtrip_cons_esc '\n' 'n' s rest fuel (by decide) (by decide)
                  (by decide) hrec hf
              · by_cases h6 : c = '\r'
                · subst h6
                  exact roundtrip_cons_esc '\r' 'r' s rest fuel (by decide) (by decide)
                    (by decide) hrec hf
                · by_cases h7 : c = '\t'
                  · subst h7
                    exact roundtrip_cons_esc '\t' 't' s rest fuel (by decide) (by decide)
                      (by decide) hrec hf
                  · have hesc : escChar c = [c] := by
                      rw [escChar, if_neg h1, if_neg h2, if_neg h3, if_neg h4, if_neg h5,
                        if_neg h6, if_neg h7]
                    have hge : ¬c.toNat < 0x20 := by
                      rcases h c (List.mem_cons_self _ _) with hx | hx
                      · omega
                      · exfalso
                        simp only [List.mem_cons, List.not_mem_nil, or_false] at hx
                        rcases hx with rfl | rfl | rfl | rfl | rfl <;> simp_all
                    exact roundtrip_cons_raw c s rest fuel hesc h1 h2 hge hrec hf

/-- C3 (amended): the escaper of `complete_extension.cpp` round-trips
through a strict JSON string decode for exactly those inputs whose control
characters are limited to the escaped five (`\b`, `\f`, `\n`, `\r`, `\t`);
this covers all strings containing quotes, backslashes and newlines.  Other
control characters are copied to the output raw, where a strict JSON parser
rejects them (see the counterexample). -/
theorem escape_roundtrip (s : List Char)
    (h : ∀ c ∈ s, 0x20 ≤ c.toNat ∨ c ∈ ['\x08', '\x0c', '\n', '\r', '\t']) :
    decodeJsonStringLit (encodeJsonStringLit s) = some s := by
  have key : psbF ((escapeJsonString s ++ ['"']).length + 1)
      (escapeJsonString s ++ '"' :: []) = some (s, []) :=
    parseStringBody_escape s h _ [] (by simp; omega)
  rw [encodeJsonStringLit, decodeJsonStringLit]
  simp only [if_pos rfl]
  rw [parseStringBody, key]
  simp

/-- C3 witness: a concrete string containing a quote, a backslash and a
newline round-trips. -/
theorem escape_roundtrip_witness :
    (∀ c ∈ ['a', '"', '\\', '\n', 'b'],
        0x20 ≤ c.toNat ∨ c ∈ ['\x08', '\x0c', '\n', '\r', '\t']) ∧
      decodeJsonStringLit (encodeJsonStringLit ['a', '"', '\\', '\n', 'b']) =
        some ['a', '"', '\\', '\n', 'b'] :=
  ⟨by decide, escape_roundtrip _ (by decide)⟩

/-- C3 counterexample: the control character 0x01 is passed through the
escaper raw, and the resulting literal is rejected by a strict JSON string
decode instead of re-parsing to the original value. -/
theorem escape_roundtrip_counterexample :
    (Char.ofNat 1).toNat < 0x20 ∧
      decodeJsonStringLit (encodeJsonStringLit [Char.ofNat 1]) = none := by
  decide

/-- JSON values as produced by the bundled nlohmann parser.  Integer
numbers only; fraction/exponent literals become C++ doubles and are not
modelled (no embedded request or response body uses them). -/
inductive Json where
  | null
  | bool (b : Bool)
  | num (n : Int)
  | str (s : String)
  | arr (xs : List Json)
  | obj (fields : List (String × Json))
deriving Repr

/-- Whitespace skipping of the JSON lexer. -/
def skipWs : List Char → List Char
  | [] => []
  | c :: rest =>
      if c = ' ' ∨ c = '\t' ∨ c = '\n' ∨ c = '\r' then skipWs rest else c :: rest

/-- Decimal digit test. -/
def isDigitCh (c : Char) : Bool := decide ('0' ≤ c ∧ c ≤ '9')

/-- Value of a non-empty digit string. -/
def natOfDigits (ds : List Char) : Nat :=
  ds.foldl (fun a c => a * 10 + (c.toNat - 48)) 0

/-- Unsigned integer literal: a digit run with no leading zero and not
followed by a fraction or exponent marker. -/
def parseNumAux (cs : List Char) : Option (Nat × List Char) :=
  let ds := cs.takeWhile isDigitCh
  let rest := cs.dropWhile isDigitCh
  if ds = [] then none
  else if 1 < ds.length ∧ ds.head? = some '0' then none
  else
    match rest with
    | c :: _ => if c = '.' ∨ c = 'e' ∨ c = 'E' then none else some (natOfDigits ds, rest)
    | [] => some (natOfDigits ds, rest)

/-- Integer number literal with optional leading minus. -/
def parseNumber (cs : List Char) : Option (Json × List Char) :=
  match cs with
  | '-' :: rest =>
      match parseNumAux rest with
      | some (n, r) => some (Json.num (-(n : Int)), r)
      | none => none
  | _ =>
      match parseNumAux cs with
      | some (n, r) => some (Json.num (n : Int), r)
      | none => none

mutual

/-- Strict JSON value parser (fuel-bounded recursion; every recursive call
consumes at least one input character first, so `input length + 1` fuel is
always enough).  Object fields are kept in textual order; the nlohmann
`std::map` backing stores them sorted, which key lookup cannot observe for
the distinct-key documents exchanged by the extension. -/
def parseValue : Nat → List Char → Option (Json × List Char)
  | 0, _ => none
  | fuel + 1, cs =>
    match skipWs cs with
    | [] => none
    | c :: rest =>
      if c = '"' then
        match parseStringBody rest with
        | some (s, r) => some (Json.str (String.mk s), r)
        | none => none
      else if c = 't' then
        match rest with
        | 'r' :: 'u' :: 'e' :: r => some (Json.bool true, r)
        | _ => none
      else if c = 'f' then
        match rest with
        | 'a' :: 'l' :: 's' :: 'e' :: r => some (Json.bool false, r)
        | _ => none
      else if c = 'n' then
        match rest with
        | 'u' :: 'l' :: 'l' :: r => some (Json.null, r)
        | _ => none
      else if c = '\x7b' then
        match skipWs rest with
        | c2 :: r2 => if c2 = '\x7d' then some (Json.obj [], r2) else parseMembers fuel rest []
        | [] => none
      else if c = '[' then
        match skipWs rest with
        | c2 :: r2 => if c2 = ']' then some (Json.arr [], r2) else parseElements fuel rest []
        | [] => none
      else parseNumber (c :: rest)

/-- Parse the members of a non-empty JSON object (input starts after the
opening brace). -/
def parseMembers : Nat → List Char → List (String × Json) → Option (Json × List Char)
  | 0, _, _ => none
  | fuel + 1, cs, acc =>
    match skipWs cs with
    | c :: rest =>
      if c = '"' then
        match parseStringBody rest with
        | some (k, r1) =>
          match skipWs r1 with
          | c2 :: r2 =>
            if c2 = ':' then
              match parseValue fuel r2 with
              | some (v, r3) =>
                match skipWs r3 with
                | c3 :: r4 =>
                    if c3 = ',' then parseMembers fuel r4 (acc ++ [(String.mk k, v)])
                    else if c3 = '\x7d' then some (Json.obj (acc ++ [(String.mk k, v)]), r4)
                    else none
                | [] => none
              | none => none
            else none
          | [] => none
        | none => none
      else none
    | [] => none

/-- Parse the elements of a non-empty JSON array (input starts after the
opening bracket). -/
def parseElements : Nat → List Char → List Json → Option (Json × List Char)
  | 0, _, _ => none
  | fuel + 1, cs, acc =>
    match parseValue fuel cs with
    | some (v, r1) =>
      match skipWs r1 with
      | c :: r2 =>
          if c = ',' then parseElements fuel r2 (acc ++ [v])
          else if c = ']' then some (Json.arr (acc ++ [v]), r2)
          else none
      | [] => none
    | none => none

end

/-- Model of `nlohmann::json::parse` on a whole document: one value with
only trailing whitespace. -/
def parseJson (s : String) : Option Json :=
  match parseValue (s.length + 1) s.toList with
  | some (v, rest) => if skipWs rest = [] then some v else none
  | none => none

/-- Lower-case hex digit, as emitted by the nlohmann serializer. -/
def hexLo (n : Nat) : Char :=
  if n < 10 then Char.ofNat (48 + n) else Char.ofNat (97 + (n - 10))

/-- Escaping performed by `nlohmann::json::dump` on one string character:
the seven short escapes, `\u00XX` for the remaining control characters,
everything else raw. -/
def dumpEscChar (c : Char) : List Char :=
  if c = '"' then ['\\', '"']
  else if c = '\\' then ['\\', '\\']
  else if c = '\x08' then ['\\', 'b']
  else if c = '\x0c' then ['\\', 'f']
  else if c = '\n' then ['\\', 'n']
  else if c = '\r' then ['\\', 'r']
  else if c = '\t' then ['\\', 't']
  else if c.toNat < 0x20 then
    ['\\', 'u', '0', '0', hexLo (c.toNat / 16), hexLo (c.toNat % 16)]
  else [c]

/-- Serializer escaping over a character list. -/
def dumpEscList : List Char → List Char
  | [] => []
  | c :: rest => dumpEscChar c ++ dumpEscList rest

/-- A serialized JSON string literal. -/
def dumpStringLit (s : String) : String :=
  "\"" ++ String.mk (dumpEscList s.toList) ++ "\""

mutual

/-- Model of `nlohmann::json::dump()` (compact form, no indentation), used
to render request bodies. -/
def dumpJson : Json → String
  | .null => "null"
  | .bool true => "true"
  | .bool false => "false"
  | .num n => toString n
  | .str s => dumpStringLit s
  | .arr xs => "[" ++ dumpElems xs ++ "]"
  | .obj fs => "\x7b" ++ dumpFields fs ++ "\x7d"

/-- Comma-joined serialization of array elements. -/
def dumpElems : List Json → String
  | [] => ""
  | [x] => dumpJson x
  | x :: y :: xs => dumpJson x ++ "," ++ dumpElems (y :: xs)

/-- Comma-joined serialization of object fields. -/
def dumpFields : List (String × Json) → String
  | [] => ""
  | [(k, v)] => dumpStringLit k ++ ":" ++ dumpJson v
  | (k, v) :: f :: fs => dumpStringLit k ++ ":" ++ dumpJson v ++ "," ++ dumpFields (f :: fs)

end

/-- Field lookup in an object field list (`std::map::find` semantics for
the distinct-key objects the extension exchanges). -/
def lookupField : List (String × Json) → String → Option Json
  | [], _ => none
  | (k, x) :: rest, key => if k = key then some x else lookupField rest key

/-- The `json::operator[]` read used by the response parsers: a field of an
object, absent otherwise. -/
def objLookup (v : Json) (key : String) : Option Json :=
  match v with
  | .obj fs => lookupField fs key
  | _ => none

/-- Stand-in for the text of `nlohmann::json::exception::what()`. -/
def jsonExcMsg : String := "[json.exception]"

/-- Model of `responseJson.value(key, default)` for string values: the
default when the key is absent, the string when present, a type exception
otherwise. -/
def jsonValueStr (v : Json) (key dflt : String) : Except String String :=
  match objLookup v key with
  | none => Except.ok dflt
  | some (.str s) => Except.ok s
  | some _ => Except.error jsonExcMsg

end JsonCodec

namespace MongoAPI

open JsonCodec

/-- Model of a SourceMod `IBasicTrie`/StringMap as the API layer sees it;
`none` at an operation boundary models a null pointer argument. -/
abbrev Doc := List (String × String)

/-- The `ConnectionInfo` struct of `mongodb_api.h`, without its two
`steady_clock` timestamps (real-time data). -/
structure ConnectionInfo where
  connectionId : String
  apiUrl : String
  isActive : Bool
deriving Repr, DecidableEq

/-- The `CollectionInfo` struct of `mongodb_api.h`. -/
structure CollectionInfo where
  connectionId : String
  database : String
  collection : String
  connectionHandle : Nat
deriving Repr, DecidableEq

/-- The `MongoDBAPILayer::Stats` counters (`size_t`, hence mod `2 ^ 64`). -/
structure APIStats where
  totalConnections : Nat
  activeConnections : Nat
  totalOperations : Nat
  successfulOperations : Nat
  failedOperations : Nat
deriving Repr, DecidableEq

/-- The mutable state of a `MongoDBAPILayer`: the two handle maps
(`std::map` embedded as association lists with distinct keys), the
`m_lastError` string and the stats. -/
structure APIState where
  connections : List (Nat × ConnectionInfo)
  collections : List (Nat × CollectionInfo)
  lastError : String
  stats : APIStats
deriving Repr, DecidableEq

/-- Model of `std::map::find` on a handle map. -/
def lookupH {α : Type} : List (Nat × α) → Nat → Option α
  | [], _ => none
  | (k, v) :: rest, h => if k = h then some v else lookupH rest h

/-- Model of `std::map::erase` on a handle map. -/
def eraseH {α : Type} (m : List (Nat × α)) (h : Nat) : List (Nat × α) :=
  m.filter (fun p => p.1 != h)

/-- One HTTP request issued through the injected `HTTPClient`. -/
structure APICall where
  endpoint : String
  method : String
  data : String
deriving Repr, DecidableEq

/-- Result of one `HTTPClient::SendRequest` call as seen from the API
layer: the response body on success, `GetLastError()` on failure. -/
inductive SendOutcome where
  | ok (response : String)
  | fail (errMsg : String)
deriving Repr, DecidableEq

/-- The injected `JSONStructureManager` (`m_jsonManager`): StringMap/JSON
conversion with `GetLastError()` text on failure. -/
structure JsonMgr where
  stringMapToJSON : Doc → Except String String
  jsonToStringMap : String → Except String Doc

/-- Result of one API-layer operation: the returned value, the state after
the call, and the HTTP requests issued during it. -/
structure OpResult (α : Type) where
  ret : α
  state : APIState
  calls : List APICall

/-- The constant `MongoDBAPILayer::API_VERSION`. -/
def apiVersion : String := "v1"

/-- Model of `MongoDBAPILayer::BuildURL`. -/
def buildURL (c : CollectionInfo) (operation : String) : String :=
  "/api/" ++ apiVersion ++ "/connections/" ++ c.connectionId ++ "/databases/" ++
    c.database ++ "/collections/" ++ c.collection ++ "/" ++ operation

/-- Model of `MongoDBAPILayer::UpdateStats`. -/
def updateAPIStats (success : Bool) (s : APIStats) : APIStats :=
  { s with
    totalOperations := (s.totalOperations + 1) % 2 ^ 64
    successfulOperations :=
      if success then (s.successfulOperations + 1) % 2 ^ 64 else s.successfulOperations
    failedOperations :=
      if success then s.failedOperations else (s.failedOperations + 1) % 2 ^ 64 }

/-- Model of `MongoDBAPILayer::ParseInsertResponse`: the inserted id (or
none) and the resulting `m_lastError`.  A parse or type exception is caught
inside the function; an explicit `"success": false` reads the `"error"`
field with default "Insert operation failed". -/
def parseInsertResponse (response : String) (lastErr : String) :
    Option String × String :=
  match parseJson response with
  | none => (none, "Failed to parse insert response: " ++ jsonExcMsg)
  | some v =>
    match objLookup v "success" with
    | some (Json.bool false) =>
        match jsonValueStr v "error" "Insert operation failed" with
        | .ok e => (none, e)
        | .error m => (none, "Failed to parse insert response: " ++ m)
    | some (Json.bool true) =>
        match objLookup v "data" with
        | some d =>
            match objLookup d "insertedId" with
            | some (Json.str s) => (some s, lastErr)
            | _ => (none, "Failed to parse insert response: " ++ jsonExcMsg)
        | none => (none, "Failed to parse insert response: " ++ jsonExcMsg)
    | _ => (none, "Failed to parse insert response: " ++ jsonExcMsg)

/-- Model of `MongoDBAPILayer::ParseFindOneResponse`
(`mongodb_api.cpp:374-408`): the decoded document (or none) and the
resulting `m_lastError`.  On `"success": true` with `"data": null` it
returns null *without touching* `m_lastError` ("No document found"); on
`"success": false` it returns null with `m_lastError` set; on a non-null
payload it converts through the injected `JSONStructureManager`
(`adtfactory->CreateBasicStringMap` is modelled as always yielding a fresh
map). -/
def parseFindOneResponse (jm : JsonMgr) (response : String) (lastErr : String) :
    Option Doc × String :=
  match parseJson response with
  | none => (none, "Failed to parse find response: " ++ jsonExcMsg)
  | some v =>
    match objLookup v "success" with
    | some (Json.bool false) =>
        match jsonValueStr v "error" "Find operation failed" with
        | .ok e => (none, e)
        | .error m => (none, "Failed to parse find response: " ++ m)
    | some (Json.bool true) =>
        match objLookup v "data" with
        | some Json.null => (none, lastErr)
        | some d =>
            match jm.jsonToStringMap (dumpJson d) with
            | .ok doc => (some doc, lastErr)
            | .error e => (none, "Failed to convert response to StringMap: " ++ e)
        | none => (none, "Failed to parse find response: " ++ jsonExcMsg)
    | _ => (none, "Failed to parse find response: " ++ jsonExcMsg)

/-- Model of `MongoDBAPILayer::ParseUpdateResponse`: matched and modified
counts (or none) and the resulting `m_lastError`. -/
def parseUpdateResponse (response : String) (lastErr : String) :
    Option (Int × Int) × String :=
  match parseJson response with
  | none => (none, "Failed to parse update response: " ++ jsonExcMsg)
  | some v =>
    match objLookup v "success" with
    | some (Json.bool false) =>
        match jsonValueStr v "error" "Update operation failed" with
        | .ok e => (none, e)
        | .error m => (none, "Failed to parse update response: " ++ m)
    | some (Json.bool true) =>
        match objLookup v "data" with
        | some d =>
            match objLookup d "matchedCount", objLookup d "modifiedCount" with
            | some (Json.num a), some (Json.num b) => (some (a, b), lastErr)
            | _, _ => (none, "Failed to parse update response: " ++ jsonExcMsg)
        | none => (none, "Failed to parse update response: " ++ jsonExcMsg)
    | _ => (none, "Failed to parse update response: " ++ jsonExcMsg)

/-- Model of `MongoDBAPILayer::InsertOne` (`mongodb_api.cpp:168-215`),
parameterised over the injected `JSONStructureManager` and `HTTPClient`.
Returns the (flag, insertedId) pair, the new state, and the HTTP calls
issued.  The handle check and the null-document validation return before
any network call; conversion and JSON exceptions follow the C++ paths
(only the catch block and the success path touch the stats). -/
def insertOne (jm : JsonMgr) (send : APICall → SendOutcome) (st : APIState)
    (collection : Nat) (document : Option Doc) : OpResult (Bool × String) :=
  match lookupH st.collections collection with
  | none => ⟨(false, ""), { st with lastError := "Invalid collection handle" }, []⟩
  | some collInfo =>
    match document with
    | none => ⟨(false, ""), { st with lastError := "StringMap is null in document" }, []⟩
    | some doc =>
      match jm.stringMapToJSON doc with
      | .error e =>
          ⟨(false, ""),
            { st with lastError := "Failed to convert document to JSON: " ++ e }, []⟩
      | .ok documentJson =>
        match parseJson documentJson with
        | none =>
            ⟨(false, ""),
              { st with lastError := "JSON error in InsertOne: " ++ jsonExcMsg
                        stats := updateAPIStats false st.stats }, []⟩
        | some docVal =>
          let requestData := dumpJson (Json.obj [("document", docVal)])
          let call : APICall := ⟨buildURL collInfo "documents", "POST", requestData⟩
          match send call with
          | .fail e =>
              ⟨(false, ""), { st with lastError := "HTTP request failed: " ++ e }, [call]⟩
          | .ok responseData =>
            match parseInsertResponse responseData st.lastError with
            | (none, err) => ⟨(false, ""), { st with lastError := err }, [call]⟩
            | (some insertedId, err) =>
                ⟨(true, insertedId),
                  { st with lastError := err, stats := updateAPIStats true st.stats },
                  [call]⟩

/-- Model of `MongoDBAPILayer::UpdateOne` (`mongodb_api.cpp:428-479`).
Handle check, then null validation of `filter` and `update` in that order,
all before any network call; a failed StringMap conversion sets the shared
"Failed to convert parameters to JSON" text; response parsing updates the
stats on both outcomes, as in the C++. -/
def updateOne (jm : JsonMgr) (send : APICall → SendOutcome) (st : APIState)
    (collection : Nat) (filter update : Option Doc) : OpResult Bool :=
  match lookupH st.collections collection with
  | none => ⟨false, { st with lastError := "Invalid collection handle" }, []⟩
  | some collInfo =>
    match filter with
    | none => ⟨false, { st with lastError := "StringMap is null in filter" }, []⟩
    | some f =>
      match update with
      | none => ⟨false, { st with lastError := "StringMap is null in update" }, []⟩
      | some u =>
        match jm.stringMapToJSON f with
        | .error _ =>
            ⟨false, { st with lastError := "Failed to convert parameters to JSON" }, []⟩
        | .ok filterJson =>
          match jm.stringMapToJSON u with
          | .error _ =>
              ⟨false, { st with lastError := "Failed to convert parameters to JSON" }, []⟩
          | .ok updateJson =>
            match parseJson filterJson, parseJson updateJson with
            | some fv, some uv =>
                let requestData := dumpJson (Json.obj [("filter", fv), ("update", uv)])
                let call : APICall := ⟨buildURL collInfo "documents/updateOne", "PUT",
                  requestData⟩
                match send call with
                | .fail e =>
                    ⟨false, { st with lastError := "HTTP request failed: " ++ e }, [call]⟩
                | .ok responseData =>
                  match parseUpdateResponse responseData st.lastError with
                  | (some _, err) =>
                      ⟨true,
                        { st with lastError := err
                                  stats := updateAPIStats true st.stats }, [call]⟩
                  | (none, err) =>
                      ⟨false,
                        { st with lastError := err
                                  stats := updateAPIStats false st.stats }, [call]⟩
            | _, _ =>
                ⟨false,
                  { st with lastError := "JSON error in UpdateOne: " ++ jsonExcMsg
                            stats := updateAPIStats false st.stats }, []⟩

/-- Model of `MongoDBAPILayer::FindOne` (`mongodb_api.cpp:217-260`).  A null
filter (or a filter whose conversion fails) keeps the default empty
`{"filter": {}}` body; a filter whose converted text fails to re-parse
raises the JSON exception caught by the outer handler.  The decoded result
of `ParseFindOneResponse` drives the stats: a null return — whether failure
or explicit no-document — is counted as a failed operation. -/
def findOne (jm : JsonMgr) (send : APICall → SendOutcome) (st : APIState)
    (collection : Nat) (filter : Option Doc) : OpResult (Option Doc) :=
  match lookupH st.collections collection with
  | none => ⟨none, { st with lastError := "Invalid collection handle" }, []⟩
  | some collInfo =>
    let fstep : Except String Json :=
      match filter with
      | none => .ok (Json.obj [])
      | some f =>
        match jm.stringMapToJSON f with
        | .error _ => .ok (Json.obj [])
        | .ok fj =>
          match parseJson fj with
          | none => .error ("JSON error in FindOne: " ++ jsonExcMsg)
          | some v => .ok v
    match fstep with
    | .error e =>
        ⟨none, { st with lastError := e, stats := updateAPIStats false st.stats }, []⟩
    | .ok filterVal =>
      let call : APICall := ⟨buildURL collInfo "documents/findOne", "POST",
        dumpJson (Json.obj [("filter", filterVal)])⟩
      match send call with
      | .fail e => ⟨none, { st with lastError := "HTTP request failed: " ++ e }, [call]⟩
      | .ok responseData =>
        match parseFindOneResponse jm responseData st.lastError with
        | (some doc, err) =>
            ⟨some doc,
              { st with lastError := err, stats := updateAPIStats true st.stats }, [call]⟩
        | (none, err) =>
            ⟨none,
              { st with lastError := err, stats := updateAPIStats false st.stats }, [call]⟩

/-- Model of `MongoDBAPILayer::CloseConnection` (`mongodb_api.cpp:112-141`).
On a failed DELETE the function returns false leaving the connection map,
the `isActive` flag and the stats untouched; on success it clears
`isActive`, decrements `activeConnections` (a `size_t`) and erases the map
entry (the erase destroys the updated entry, so only the erase is visible
in the resulting state). -/
def closeConnection (send : APICall → SendOutcome) (st : APIState) (connection : Nat) :
    OpResult Bool :=
  match lookupH st.connections connection with
  | none => ⟨false, { st with lastError := "Invalid connection handle" }, []⟩
  | some connInfo =>
    let call : APICall := ⟨"/api/" ++ apiVersion ++ "/connections/" ++ connInfo.connectionId,
      "DELETE", ""⟩
    match send call with
    | .fail e => ⟨false, { st with lastError := "HTTP request failed: " ++ e }, [call]⟩
    | .ok _ =>
        ⟨true,
          { st with
            connections := eraseH st.connections connection
            stats := { st.stats with
              activeConnections := (st.stats.activeConnections + 2 ^ 64 - 1) % 2 ^ 64 } },
          [call]⟩

end MongoAPI

namespace MongoAPI

/-- A concrete `JSONStructureManager` stand-in for closed evaluations; the
decoder branches exercised in the closed theorems never consult it. -/
def jmConst : JsonMgr := ⟨fun _ => .error "", fun _ => .error ""⟩

/-- C5 (amended): decoding the find-one body `{"success":true,"data":null}`
yields the explicit no-document outcome — a null result with `m_lastError`
left unchanged — while the failure outcome (here `{"success":false}`) also
yields a null result, with `m_lastError` overwritten.  Only the payload
outcome is distinguished by the decoder's return value; no-result and
failure both return null and are separated only by the `m_lastError` side
effect (see the counterexample for a prior state where even that
coincides). -/
theorem findone_null_data_decode (jm : JsonMgr) (e : String) :
    parseFindOneResponse jm "\x7b\"success\":true,\"data\":null\x7d" e = (none, e) ∧
      parseFindOneResponse jm "\x7b\"success\":false\x7d" e =
        (none, "Find operation failed") := by
  constructor <;> rfl

/-- C5 counterexample: from the prior last-error state "Find operation
failed", the decoder maps the explicit no-result body and a failure body to
identical outcomes (both a null result with the same last-error), so the
three outcomes are not pairwise distinct at the decoder's interface. -/
theorem findone_null_data_counterexample :
    parseFindOneResponse jmConst "\x7b\"success\":true,\"data\":null\x7d"
        "Find operation failed" =
      parseFindOneResponse jmConst "\x7b\"success\":false\x7d" "Find operation failed" ∧
      (parseFindOneResponse jmConst "\x7b\"success\":true,\"data\":null\x7d"
        "Find operation failed").1 = none := by
  constructor <;> rfl

/-- C6: an operation called with a null required parameter — a null
document for `InsertOne`, a null filter or update for `UpdateOne` — returns
failure with `m_lastError` set to a non-empty message, and issues no HTTP
call (the injected `HTTPClient` is never invoked), whatever the rest of the
state. -/
theorem null_param_no_network (jm : JsonMgr) (send : APICall → SendOutcome)
    (st : APIState) (c : Nat) (f u : Option Doc) :
    ((insertOne jm send st c none).ret.1 = false ∧
        (insertOne jm send st c none).calls = [] ∧
        (insertOne jm send st c none).state.lastError ≠ "") ∧
      ((updateOne jm send st c none u).ret = false ∧
        (updateOne jm send st c none u).calls = [] ∧
        (updateOne jm send st c none u).state.lastError ≠ "") ∧
      ((updateOne jm send st c f none).ret = false ∧
        (updateOne jm send st c f none).calls = [] ∧
        (updateOne jm send st c f none).state.lastError ≠ "") := by
  refine ⟨?_, ?_, ?_⟩
  · cases hl : lookupH st.collections c <;> simp [insertOne, hl]
  · cases hl : lookupH st.collections c <;> simp [updateOne, hl]
  · cases hl : lookupH st.collections c
    · simp [updateOne, hl]
    · cases f <;> simp [updateOne, hl]

theorem lookupH_erase {α : Type} (m : List (Nat × α)) (h : Nat) :
    lookupH (eraseH m h) h = none := by
  induction m with
  | nil => rfl
  | cons p rest ih =>
      obtain ⟨k, v⟩ := p
      by_cases hk : k = h
      · simpa [eraseH, List.filter_cons, hk] using ih
      · simpa [eraseH, List.filter_cons, hk, lookupH] using ih

/-- C10: `CloseConnection` is atomic on error — when the DELETE request
fails, the connection map (and hence the entry with its `isActive` flag)
and the `activeConnections` counter are unchanged and the call returns
false; the entry is erased and the counter decremented only when the
request succeeds. -/
theorem close_connection_atomic (send : APICall → SendOutcome) (st : APIState)
    (conn : Nat) (ci : ConnectionInfo)
    (h : lookupH st.connections conn = some ci) :
    (∀ e,
        send ⟨"/api/" ++ apiVersion ++ "/connections/" ++ ci.connectionId, "DELETE", ""⟩ =
          SendOutcome.fail e →
        (closeConnection send st conn).ret = false ∧
          (closeConnection send st conn).state.connections = st.connections ∧
          (closeConnection send st conn).state.stats.activeConnections =
            st.stats.activeConnections) ∧
      (∀ resp,
        send ⟨"/api/" ++ apiVersion ++ "/connections/" ++ ci.connectionId, "DELETE", ""⟩ =
          SendOutcome.ok resp →
        (closeConnection send st conn).ret = true ∧
          lookupH (closeConnection send st conn).state.connections conn = none ∧
          (closeConnection send st conn).state.stats.activeConnections =
            (st.stats.activeConnections + 2 ^ 64 - 1) % 2 ^ 64) := by
  constructor
  · intro e he
    simp [closeConnection, h, he]
  · intro resp hr
    refine ⟨?_, ?_, ?_⟩ <;> simp [closeConnection, h, hr, lookupH_erase]

/-- Concrete registry objects for the C10 witness. -/
def ciW : ConnectionInfo := ⟨"conn-1", "http://api.example", true⟩

/-- Witness state: one open connection under handle 1. -/
def stW : APIState := ⟨[(1, ciW)], [], "", ⟨1, 1, 0, 0, 0⟩⟩

/-- A transport whose DELETE always fails. -/
def sendFailW : APICall → SendOutcome := fun _ => .fail "connection refused"

/-- C10 witness: the atomicity theorem applied to the concrete one-entry
registry. -/
theorem close_connection_atomic_witness :
    lookupH stW.connections 1 = some ciW ∧
      ((∀ e,
          sendFailW ⟨"/api/" ++ apiVersion ++ "/connections/" ++ ciW.connectionId,
              "DELETE", ""⟩ = SendOutcome.fail e →
          (closeConnection sendFailW stW 1).ret = false ∧
            (closeConnection sendFailW stW 1).state.connections = stW.connections ∧
            (closeConnection sendFailW stW 1).state.stats.activeConnections =
              stW.stats.activeConnections) ∧
        (∀ resp,
          sendFailW ⟨"/api/" ++ apiVersion ++ "/connections/" ++ ciW.connectionId,
              "DELETE", ""⟩ = SendOutcome.ok resp →
          (closeConnection sendFailW stW 1).ret = true ∧
            lookupH (closeConnection sendFailW stW 1).state.connections 1 = none ∧
            (closeConnection sendFailW stW 1).state.stats.activeConnections =
              (stW.stats.activeConnections + 2 ^ 64 - 1) % 2 ^ 64)) :=
  ⟨rfl, close_connection_atomic sendFailW stW 1 ciW rfl⟩

end MongoAPI
